import Mathlib

/-!
# Verification of the mini-defi cross-chain bridge core

Shallow embedding of the bridge verifier contracts (`GatewayV3.sol`,
`TestReceiver.sol`'s `Gateway`, `RelayerManager.sol`, `LightClientMerkle`,
`MessageLib.sol`) and the off-chain relay coordinator
(`relayer/src/multiChainRelayer.js`) together with the merkle helper
(`test/utils/rlpValidator.js`).

Modelling conventions:
* 256-bit words, addresses, digests and signature blobs are `Nat`.
* `keccak256` and `ecrecover` are external cryptographic primitives; they
  appear as explicit function parameters, and no algebraic property of them
  is assumed anywhere.
* A reverting Solidity call is `Except.error reason`: the EVM rolls back all
  state writes and external effects of a reverted call, so an error carries
  neither a post-state nor an effect trace.
* External effects (token mints, low-level calls) are recorded in an explicit
  effect trace in source-statement order.
-/

namespace MiniDefi

/-! ## RelayerManager (`src/contracts/bridge/RelayerManager.sol`) -/

/-- State of the `RelayerManager` contract: the `stakes` mapping, the
`relayerSet` dynamic array and the `isRelayer` mapping. -/
structure RelayerManagerState where
  stakes : Nat → Nat
  relayerSet : List Nat
  isRelayer : Nat → Bool

/-- The state right after the constructor runs: no relayer has staked yet. -/
def RelayerManagerState.init : RelayerManagerState :=
  { stakes := fun _ => 0, relayerSet := [], isRelayer := fun _ => false }

/-- `RelayerManager.signatureThreshold()`: `n = relayerSet.length`;
returns `0` when `n == 0`, else `(n * 2) / 3 + 1`. -/
def signatureThreshold (s : RelayerManagerState) : Nat :=
  let n := s.relayerSet.length
  if n = 0 then 0 else n * 2 / 3 + 1

/-- `RelayerManager.stake()` (state transition part): requires the caller is
not already a relayer (and a successful stake transfer, abstracted by
`transferOk`); records the stake and appends the caller to `relayerSet`. -/
def RelayerManager.stake (minStake : Nat) (transferOk : Bool)
    (s : RelayerManagerState) (caller : Nat) :
    Except String RelayerManagerState :=
  if s.isRelayer caller then .error "Already a relayer"
  else if !transferOk then .error "Token transfer failed"
  else .ok { stakes := fun a => if a = caller then minStake else s.stakes a,
             relayerSet := s.relayerSet ++ [caller],
             isRelayer := fun a => if a = caller then true else s.isRelayer a }

/-- The `unstake` removal loop: overwrite the first occurrence of `caller`
with the last element, then pop the last slot; if `caller` is absent the
array is left untouched (Solidity lines 63-69). -/
def removeSwapPop (caller : Nat) (l : List Nat) : List Nat :=
  if caller ∈ l then (l.set (l.indexOf caller) (l.getLast?.getD 0)).dropLast
  else l

/-- `RelayerManager.unstake()`: requires the caller is an active relayer,
removes it from `relayerSet`, clears its flags and refunds the stake. -/
def RelayerManager.unstake (transferOk : Bool)
    (s : RelayerManagerState) (caller : Nat) :
    Except String RelayerManagerState :=
  if !s.isRelayer caller then .error "Not an active relayer"
  else if !transferOk then .error "Token transfer failed"
  else .ok { stakes := fun a => if a = caller then 0 else s.stakes a,
             relayerSet := removeSwapPop caller s.relayerSet,
             isRelayer := fun a => if a = caller then false else s.isRelayer a }

/-! ## Quorum signature verification

`Gateway._verifySignatures` (`src/contracts/bridge/TestReceiver.sol` lines
160-173) and `GatewayV3._verifyQuorum` (`src/contracts/bridge/GatewayV3.sol`
lines 179-199). Signer recovery (`ecrecover` over the
`"\x19Ethereum Signed Message:\n32"` prefix) is a cryptographic primitive;
it enters as a function `recover : Nat → Nat` from signature blob to
recovered address, already specialised to the digest being checked. -/

/-- The shared per-signature loop body: for each recovered signer, require it
is an active relayer (else `badSigner`), then require it differs from every
previously seen signer (else `dupSigner`), then append it to `seen`. -/
def checkSigners (isRelayer : Nat → Bool) (badSigner dupSigner : String)
    (seen : List Nat) : List Nat → Except String Unit
  | [] => .ok ()
  | a :: rest =>
    if !isRelayer a then .error badSigner
    else if a ∈ seen then .error dupSigner
    else checkSigners isRelayer badSigner dupSigner (seen ++ [a]) rest

/-- `Gateway._verifySignatures`: requires `signatures.length >= threshold`,
then recovers and checks **every** signature in the list. -/
def Gateway.verifySignatures (isRelayer : Nat → Bool) (threshold : Nat)
    (recover : Nat → Nat) (sigs : List Nat) : Except String Unit :=
  if sigs.length < threshold then .error "Not enough signatures"
  else checkSigners isRelayer "Invalid signer" "Duplicate signer" []
    (sigs.map recover)

/-- `GatewayV3._verifyQuorum`: requires `threshold > 0` and
`sigs.length >= threshold`, then recovers and checks only the **first
`threshold`** signatures (`for (uint256 i = 0; i < threshold; i++)`). -/
def GatewayV3.verifyQuorum (isRelayer : Nat → Bool) (threshold : Nat)
    (recover : Nat → Nat) (sigs : List Nat) : Except String Unit :=
  if threshold = 0 then .error "threshold=0"
  else if sigs.length < threshold then .error "not enough signatures"
  else checkSigners isRelayer "invalid signer" "duplicate signature" []
    ((sigs.take threshold).map recover)

/-! ## Merkle tree builder (`src/test/utils/rlpValidator.js`, `buildMerkle`)
and the on-chain inclusion fold
(`LightClientMerkle.verifyProof`, `src/unnamed/part_004` lines 46-88).

The 32-byte node hashes are an arbitrary type `α`; `keccak256(a ++ b)` is an
arbitrary pairing function `hash2 : α → α → α` and `ethers.ZeroHash` an
arbitrary sentinel `zero : α` — no property of either is assumed. -/

variable {α : Type}

/-- One pass of the `buildMerkle` while-loop: pair adjacent nodes
left-to-right; an odd final node is paired with the zero-hash sentinel. -/
def pairUp (hash2 : α → α → α) (zero : α) : List α → List α
  | [] => []
  | [a] => [hash2 a zero]
  | a :: b :: rest => hash2 a b :: pairUp hash2 zero rest

/-- The `layers` array of `buildMerkle`: starting from the leaf level, repeat
`pairUp` until a level has at most one node. `fuel` is the
`MAX_ITERATIONS` defensive guard (default 256): one unit per while-loop
pass, and exceeding it throws `"buildMerkle: exceeded max iterations"`. -/
def buildLayersF (hash2 : α → α → α) (zero : α) (fuel : Nat) (l : List α) :
    Except String (List (List α)) :=
  if l.length ≤ 1 then .ok [l]
  else match fuel with
    | 0 => .error "buildMerkle: exceeded max iterations"
    | fuel + 1 =>
      match buildLayersF hash2 zero fuel (pairUp hash2 zero l) with
      | .error e => .error e
      | .ok rest => .ok (l :: rest)

/-- `root = layers[layers.length - 1][0]`. -/
def rootOfLayers (zero : α) (layers : List (List α)) : α :=
  (layers.getLastD []).getD 0 zero

/-- The per-leaf proof loop of `buildMerkle`: for every layer except the
last, record the sibling `layers[layer][index ^ 1] || ZeroHash` and the
direction `index % 2`, then halve the index. -/
def proofWalk (zero : α) : List (List α) → Nat → List (α × Bool)
  | [], _ => []
  | [_], _ => []
  | lay :: rest, idx =>
    (lay.getD (idx ^^^ 1) zero, idx % 2 == 1) ::
      proofWalk zero rest (idx / 2)

/-- The sibling-hash sequence (`proofs[idx]`) for leaf `idx`. -/
def proofSibsOf (zero : α) (layers : List (List α)) (idx : Nat) : List α :=
  (proofWalk zero layers idx).map Prod.fst

/-- A byte assembled from up to 8 direction bits, low-bit-first. -/
def byteOfBits : List Bool → Nat
  | [] => 0
  | b :: rest => (if b then 1 else 0) + 2 * byteOfBits rest

/-- The non-empty case of `packDirections`: chunk the direction bits in
groups of 8 and pack each group low-bit-first into one byte. -/
def packChunks : List Bool → List Nat
  | [] => []
  | d :: rest =>
    byteOfBits ((d :: rest).take 8) :: packChunks ((d :: rest).drop 8)
  termination_by ds => ds.length
  decreasing_by simp; omega

/-- `packDirections` (`rlpValidator.js` lines 93-100): bitmask of
`ceil(len/8) || 1` bytes, bit `j % 8` of byte `j / 8` set iff direction `j`
is set. -/
def packDirections (dirs : List Bool) : List Nat :=
  if dirs.isEmpty then [0] else packChunks dirs

/-- The direction-bitmask path (`paths[idx]`) for leaf `idx`. -/
def proofPathOf (zero : α) (layers : List (List α)) (idx : Nat) : List Nat :=
  packDirections ((proofWalk zero layers idx).map Prod.snd)

/-- Reading direction bit `i` exactly as `LightClientMerkle.verifyProof`
does: `byteIndex = i >> 3`, `bitIndex = i & 7`,
`siblingIsLeft = ((b >> bitIndex) & 1) != 0`. -/
def bitmaskBit (bitmask : List Nat) (i : Nat) : Bool :=
  (bitmask.getD (i >>> 3) 0) >>> (i &&& 7) &&& 1 != 0

/-- The merkle folding loop of `LightClientMerkle.verifyProof`: bit `i`
clear means the computed value is the left operand
(`keccak256(computed ‖ sibling)`), bit set means the sibling is the left
operand (`keccak256(sibling ‖ computed)`). -/
def foldBitmask (hash2 : α → α → α) (bitmask : List Nat) :
    α → List α → Nat → α
  | computed, [], _ => computed
  | computed, sib :: rest, i =>
    foldBitmask hash2 bitmask
      (if bitmaskBit bitmask i then hash2 sib computed
       else hash2 computed sib) rest (i + 1)

/-- Folding at the level of explicit (sibling, direction) pairs. -/
def foldPairs (hash2 : α → α → α) : α → List (α × Bool) → α
  | computed, [] => computed
  | computed, (sib, dir) :: rest =>
    foldPairs hash2
      (if dir then hash2 sib computed else hash2 computed sib) rest

/-! ## `LightClientMerkle.verifyProof` (`src/unnamed/part_004` lines 46-88)

`keccak256` over byte strings is an abstract `keccak : List Nat → Nat`;
`keccak256(abi.encodePacked(x, y))` for two 32-byte words is `keccak`
applied to the concatenation of their big-endian byte encodings. The
`abi.decode` of the proof blob into `(receiptRLP, siblings, bitmask)` is
external and the three components are taken directly as arguments. -/

/-- Big-endian byte encoding of `w` in exactly `n` bytes (`w` truncated to
its low `8n` bits). -/
def bytesBE : Nat → Nat → List Nat
  | 0, _ => []
  | n + 1, w => bytesBE n (w / 256) ++ [w % 256]

/-- A 32-byte EVM word. -/
def wordBytes (w : Nat) : List Nat := bytesBE 32 w

/-- `LightClientMerkle.verifyProof`: look up the accepted root (0 = absent),
then check only that the receipt is non-empty, that its first byte is an
RLP list tag (`>= 0xc0`) and that the bitmask has enough bits for the
siblings, hash the **whole** receipt bytes into the leaf, fold, and compare
with the stored root. -/
def LightClientMerkle.verifyProof (keccak : List Nat → Nat)
    (receiptsRootOf : Nat → Nat) (headerId : Nat) (receiptRLP : List Nat)
    (siblings : List Nat) (bitmask : List Nat) : Bool :=
  if receiptsRootOf headerId = 0 then false
  else if receiptRLP.length = 0 then false
  else if receiptRLP.headD 0 < 0xc0 then false
  else if bitmask.length * 8 < siblings.length then false
  else
    decide (foldBitmask (fun a b => keccak (wordBytes a ++ wordBytes b))
      bitmask (keccak receiptRLP) siblings 0 = receiptsRootOf headerId)

/-- `LightClientMerkle._readLength` (Solidity, `uint256` arithmetic):
accumulate `lenOfLen` big-endian bytes, `val = (val << 8) | b`. -/
def readLength (b : List Nat) (offset lenOfLen : Nat) :
    Except String Nat :=
  if lenOfLen = 0 ∨ 32 < lenOfLen then .error "RLP: invalid lenOfLen"
  else if b.length < offset + lenOfLen then .error "RLP: readLength oob"
  else .ok (((b.drop offset).take lenOfLen).foldl
    (fun v x => v <<< 8 % 2 ^ 256 ||| x) 0)

/-- `LightClientMerkle._rlpItemPayload`: payload offset and length of the
RLP item starting at `pos` (present in the contract, but never invoked by
`verifyProof`). -/
def rlpItemPayload (b : List Nat) (pos : Nat) :
    Except String (Nat × Nat) :=
  if b.length ≤ pos then .error "RLP: out of bounds"
  else
    let pfx := b.getD pos 0
    if pfx ≤ 0x7f then .ok (pos, 1)
    else if pfx ≤ 0xb7 then .ok (pos + 1, pfx - 0x80)
    else if pfx ≤ 0xbf then
      let lenOfLen := pfx - 0xb7
      if b.length < pos + 1 + lenOfLen then .error "RLP: long string oob"
      else match readLength b (pos + 1) lenOfLen with
        | .error e => .error e
        | .ok len => .ok (pos + 1 + lenOfLen, len)
    else if pfx ≤ 0xf7 then .ok (pos + 1, pfx - 0xc0)
    else
      let lenOfLen := pfx - 0xf7
      if b.length < pos + 1 + lenOfLen then .error "RLP: long list oob"
      else match readLength b (pos + 1) lenOfLen with
        | .error e => .error e
        | .ok len => .ok (pos + 1 + lenOfLen, len)

/-! ## Message digests (`src/contracts/bridge/MessageLib.sol` and
`src/relayer/src/multiChainRelayer.js` lines 29-59)

`abi.encode` of the fixed `(bytes32, uint256, uint256, uint256, address,
address, bytes32, uint256)` signature is the concatenation of the eight
32-byte big-endian words (addresses left-padded); this encoder is shared
external library behaviour, modelled once. `keccak256` of a UTF-8 string
(for the type hash) is `keccakStr`, of a byte string `keccakBytes`; both
are opaque parameters. -/

/-- Eight(-or-more)-word `abi.encode`. -/
def encodeWords (ws : List Nat) : List Nat := (ws.map wordBytes).join

/-- `MessageLib.hashMessage` (Solidity): keccak over the abi-encoding of
the `CrossChainMessage` domain type hash, all scalar fields, and the
payload's own keccak hash. -/
def MessageLib.hashMessage (keccakStr : String → Nat)
    (keccakBytes : List Nat → Nat)
    (nonce fromChainId toChainId sender target : Nat) (data : List Nat)
    (value : Nat) : Nat :=
  keccakBytes (encodeWords
    [keccakStr "CrossChainMessage(uint256 nonce,uint256 fromChainId,uint256 toChainId,address sender,address target,bytes data,uint256 value)",
     nonce, fromChainId, toChainId, sender, target, keccakBytes data,
     value])

/-- `hashMessage` from `multiChainRelayer.js`: same shape, with the
cross-chain nonce hard-coded to `0`. -/
def Relayer.hashMessage (keccakStr : String → Nat)
    (keccakBytes : List Nat → Nat)
    (fromChainId toChainId sender target : Nat) (data : List Nat)
    (value : Nat) : Nat :=
  keccakBytes (encodeWords
    [keccakStr "CrossChainMessage(uint256 nonce,uint256 fromChainId,uint256 toChainId,address sender,address target,bytes data,uint256 value)",
     0, fromChainId, toChainId, sender, target, keccakBytes data, value])

/-! ## GatewayV3 state machine (`src/contracts/bridge/GatewayV3.sol`)

A reverting call is `Except.error`; an accepting call returns the
post-state together with the trace of external effects in source-statement
order (`markConsumed` is the `usedProofs[digest] = true` store). The
outcome of the low-level `target.call` in `executeMessage` only feeds the
emitted event, never a revert, so it is not an oracle here. -/

structure V3State where
  usedProofs : Nat → Bool
  nonce : Nat
  paused : Bool
  owner : Nat

structure V3Env where
  threshold : Nat
  isRelayer : Nat → Bool
  recover : Nat → Nat → Nat
  chainid : Nat
  chainEnabled : Nat → Bool
  tokenAllowed : Nat → Nat → Bool
  transferOk : Bool
  mintOk : Bool
  keccakStr : String → Nat
  keccakBytes : List Nat → Nat

inductive V3Effect
  | markConsumed (digest : Nat)
  | mint (wrappedToken recipient amount : Nat)
  | call (target value : Nat) (data : List Nat)
  | transferFrom (token sender amount : Nat)
deriving DecidableEq

inductive V3Op
  | bridgeToken (caller token amount toChainId recipient : Nat)
  | sendMessage (caller toChainId target : Nat) (data : List Nat)
      (value : Nat)
  | mintWrapped (caller wrappedToken recipient amount sourceTxHash : Nat)
      (sigs : List Nat)
  | executeMessage (caller fromChainId sender target : Nat)
      (data : List Nat) (value sourceMsgHash : Nat) (sigs : List Nat)
  | pause (caller : Nat)
  | unpause (caller : Nat)

/-- `usedProofs[h] = true`. -/
def setUsed (f : Nat → Bool) (h : Nat) : Nat → Bool :=
  fun d => if d = h then true else f d

def GatewayV3.step (env : V3Env) (s : V3State) :
    V3Op → Except String (V3State × List V3Effect)
  | .bridgeToken caller token amount toChainId _recipient =>
    if s.paused then .error "EnforcedPause"
    else if !env.chainEnabled toChainId then .error "dest chain disabled"
    else if !env.tokenAllowed toChainId token then
      .error "token not allowed"
    else if amount = 0 then .error "amount = 0"
    else if !env.transferOk then .error "transfer failed"
    else if s.nonce + 1 < 2 ^ 256 then
      .ok ({ s with nonce := s.nonce + 1 },
        [.transferFrom token caller amount])
    else .error "arithmetic overflow"
  | .sendMessage _caller toChainId _target _data _value =>
    if s.paused then .error "EnforcedPause"
    else if !env.chainEnabled toChainId then .error "dest chain disabled"
    else if s.nonce + 1 < 2 ^ 256 then
      .ok ({ s with nonce := s.nonce + 1 }, [])
    else .error "arithmetic overflow"
  | .mintWrapped _caller wrappedToken recipient amount sourceTxHash sigs =>
    if s.paused then .error "EnforcedPause"
    else if s.usedProofs sourceTxHash then .error "proof used"
    else match GatewayV3.verifyQuorum env.isRelayer env.threshold
        (env.recover sourceTxHash) sigs with
      | .error e => .error e
      | .ok () =>
        if !env.mintOk then .error "mint reverted"
        else .ok ({ s with usedProofs := setUsed s.usedProofs sourceTxHash },
          [.markConsumed sourceTxHash,
           .mint wrappedToken recipient amount])
  | .executeMessage _caller fromChainId sender target data value
      sourceMsgHash sigs =>
    if s.paused then .error "EnforcedPause"
    else if s.usedProofs sourceMsgHash then .error "proof used"
    else if MessageLib.hashMessage env.keccakStr env.keccakBytes 0
        fromChainId env.chainid sender target data value ≠ sourceMsgHash
      then .error "hash mismatch"
    else match GatewayV3.verifyQuorum env.isRelayer env.threshold
        (env.recover sourceMsgHash) sigs with
      | .error e => .error e
      | .ok () =>
        .ok ({ s with usedProofs := setUsed s.usedProofs sourceMsgHash },
          [.markConsumed sourceMsgHash, .call target value data])
  | .pause caller =>
    if caller ≠ s.owner then .error "OwnableUnauthorizedAccount"
    else if s.paused then .error "EnforcedPause"
    else .ok ({ s with paused := true }, [])
  | .unpause caller =>
    if caller ≠ s.owner then .error "OwnableUnauthorizedAccount"
    else if !s.paused then .error "ExpectedPause"
    else .ok ({ s with paused := false }, [])

/-! ## Gateway state machine (`src/contracts/bridge/TestReceiver.sol`,
contract `Gateway`)

Digests are `keccak256(abi.encodePacked(...))`: addresses are 20 bytes,
`uint256` 32 bytes, string literals their UTF-8 bytes, `bytes32` 32 bytes,
`bytes` verbatim. `keccakBytes` is the opaque hash oracle. External token
and light-client calls are oracles on the environment; a `false` oracle
means the external call reverted (which reverts the whole transaction). -/

/-- A 20-byte address in `abi.encodePacked`. -/
def addrBytes (a : Nat) : List Nat := bytesBE 20 a

/-- UTF-8 bytes of a string literal in `abi.encodePacked`. -/
def strBytes (s : String) : List Nat :=
  s.toUTF8.toList.map (fun b => b.toNat)

/-- `abi.encodePacked(originalSender, originalToken, amount, fromChainId,
"receive")`. -/
def receiveDigestBytes (sender token amount fromChainId : Nat) :
    List Nat :=
  addrBytes sender ++ addrBytes token ++ wordBytes amount ++
    wordBytes fromChainId ++ strBytes "receive"

/-- `abi.encodePacked(originalSender, originalToken, amount, fromChainId,
"receive_proof", headerRoot)`. -/
def receiveProofDigestBytes
    (sender token amount fromChainId headerRoot : Nat) : List Nat :=
  addrBytes sender ++ addrBytes token ++ wordBytes amount ++
    wordBytes fromChainId ++ strBytes "receive_proof" ++
    wordBytes headerRoot

/-- `abi.encodePacked(user, originalToken, amount, fromChainId,
"unlock")`. -/
def unlockDigestBytes (user token amount fromChainId : Nat) : List Nat :=
  addrBytes user ++ addrBytes token ++ wordBytes amount ++
    wordBytes fromChainId ++ strBytes "unlock"

/-- `abi.encodePacked(target, payload, fromChainId, "message")`. -/
def messageDigestBytes (target : Nat) (payload : List Nat)
    (fromChainId : Nat) : List Nat :=
  addrBytes target ++ payload ++ wordBytes fromChainId ++
    strBytes "message"

structure GwState where
  gateways : Nat → Nat
  supportedTokens : Nat → Bool
  wrappedTokenMap : Nat → Nat
  isRelayer : Nat → Bool
  signatureThreshold : Nat
  usedSignatures : Nat → Bool
  paused : Bool
  multisig : Nat
  owner : Nat

structure GwEnv where
  recover : Nat → Nat → Nat
  keccakBytes : List Nat → Nat
  lightClientVerify : Nat → Nat → List Nat → Bool
  transferOk : Bool
  mintOk : Bool
  burnOk : Bool

inductive GwEffect
  | markConsumed (digest : Nat)
  | mint (wrappedToken recipient amount : Nat)
  | call (target : Nat) (payload : List Nat)
  | transferFrom (token sender amount : Nat)
  | transfer (token recipient amount : Nat)
  | burnFrom (wrappedToken holder amount : Nat)
deriving DecidableEq

inductive GwOp
  | setMultisig (caller m : Nat)
  | pause (caller : Nat)
  | unpause (caller : Nat)
  | addRelayer (caller relayer : Nat)
  | removeRelayer (caller relayer : Nat)
  | setSignatureThreshold (caller newThreshold : Nat)
  | setGateway (caller chainId gateway : Nat)
  | setSupportedToken (caller token : Nat) (isSupported : Bool)
      (wrappedToken : Nat)
  | sendTokens (caller token amount toChainId : Nat)
  | sendMessage (caller : Nat) (payload : List Nat) (toChainId : Nat)
  | receiveTokens (caller sender token amount fromChainId : Nat)
      (sigs : List Nat)
  | receiveTokensWithProof
      (caller sender token amount fromChainId headerRoot : Nat)
      (proof : List Nat) (lightClient : Nat)
  | releaseTokens (caller token amount toChainId : Nat)
  | unlockTokens (caller user token amount fromChainId : Nat)
      (sigs : List Nat)
  | receiveMessage (caller target : Nat) (payload : List Nat)
      (fromChainId : Nat) (sigs : List Nat)

def Gateway.step (env : GwEnv) (s : GwState) :
    GwOp → Except String (GwState × List GwEffect)
  | .setMultisig caller m =>
    if caller ≠ s.owner then .error "OwnableUnauthorizedAccount"
    else .ok ({ s with multisig := m }, [])
  | .pause caller =>
    if caller ≠ s.owner ∧ caller ≠ s.multisig then .error "not authorized"
    else .ok ({ s with paused := true }, [])
  | .unpause caller =>
    if caller ≠ s.owner ∧ caller ≠ s.multisig then .error "not authorized"
    else .ok ({ s with paused := false }, [])
  | .addRelayer caller relayer =>
    if caller ≠ s.owner then .error "OwnableUnauthorizedAccount"
    else if s.isRelayer relayer then .error "Already a relayer"
    else .ok ({ s with isRelayer :=
      fun a => if a = relayer then true else s.isRelayer a }, [])
  | .removeRelayer caller relayer =>
    if caller ≠ s.owner then .error "OwnableUnauthorizedAccount"
    else if !s.isRelayer relayer then .error "Not a relayer"
    else .ok ({ s with isRelayer :=
      fun a => if a = relayer then false else s.isRelayer a }, [])
  | .setSignatureThreshold caller newThreshold =>
    if caller ≠ s.owner then .error "OwnableUnauthorizedAccount"
    else .ok ({ s with signatureThreshold := newThreshold }, [])
  | .setGateway caller chainId gateway =>
    if caller ≠ s.owner then .error "OwnableUnauthorizedAccount"
    else .ok ({ s with gateways :=
      fun c => if c = chainId then gateway else s.gateways c }, [])
  | .setSupportedToken caller token isSupported wrappedToken =>
    if caller ≠ s.owner then .error "OwnableUnauthorizedAccount"
    else .ok ({ s with
      supportedTokens :=
        fun t => if t = token then isSupported else s.supportedTokens t,
      wrappedTokenMap :=
        fun t => if t = token then (if isSupported then wrappedToken else 0)
          else s.wrappedTokenMap t }, [])
  | .sendTokens caller token amount toChainId =>
    if s.paused then .error "Contract paused"
    else if !s.supportedTokens token then .error "Token not supported"
    else if s.gateways toChainId = 0 then .error "Gateway not set"
    else if !env.transferOk then .error "transfer reverted"
    else .ok (s, [.transferFrom token caller amount])
  | .sendMessage _caller _payload toChainId =>
    if s.paused then .error "Contract paused"
    else if s.gateways toChainId = 0 then .error "Gateway not set"
    else .ok (s, [])
  | .receiveTokens _caller sender token amount fromChainId sigs =>
    if s.paused then .error "Contract paused"
    else
      let h := env.keccakBytes
        (receiveDigestBytes sender token amount fromChainId)
      if s.usedSignatures h then .error "Signatures already used"
      else match Gateway.verifySignatures s.isRelayer
          s.signatureThreshold (env.recover h) sigs with
        | .error e => .error e
        | .ok () =>
          if s.wrappedTokenMap token = 0 then
            .error "Wrapped token not found"
          else if !env.mintOk then .error "mint reverted"
          else .ok ({ s with usedSignatures := setUsed s.usedSignatures h },
            [.markConsumed h,
             .mint (s.wrappedTokenMap token) sender amount])
  | .receiveTokensWithProof _caller sender token amount fromChainId
      headerRoot proof lightClient =>
    if s.paused then .error "Contract paused"
    else
      let h := env.keccakBytes (receiveProofDigestBytes sender token
        amount fromChainId headerRoot)
      if s.usedSignatures h then .error "Proof already used"
      else if !env.lightClientVerify lightClient headerRoot proof then
        .error "Invalid proof"
      else if s.wrappedTokenMap token = 0 then
        .error "Wrapped token not found"
      else if !env.mintOk then .error "mint reverted"
      else .ok ({ s with usedSignatures := setUsed s.usedSignatures h },
        [.markConsumed h, .mint (s.wrappedTokenMap token) sender amount])
  | .releaseTokens caller token amount toChainId =>
    if s.paused then .error "Contract paused"
    else if s.gateways toChainId = 0 then
      .error "Gateway not set for destination"
    else if s.wrappedTokenMap token = 0 then
      .error "Wrapped token not found for original token"
    else if !env.burnOk then .error "burn reverted"
    else .ok (s, [.burnFrom (s.wrappedTokenMap token) caller amount])
  | .unlockTokens _caller user token amount fromChainId sigs =>
    if s.paused then .error "Contract paused"
    else
      let h := env.keccakBytes
        (unlockDigestBytes user token amount fromChainId)
      if s.usedSignatures h then .error "Signatures already used"
      else match Gateway.verifySignatures s.isRelayer
          s.signatureThreshold (env.recover h) sigs with
        | .error e => .error e
        | .ok () =>
          if !s.supportedTokens token then .error "Token not supported"
          else if !env.transferOk then .error "transfer reverted"
          else .ok ({ s with usedSignatures := setUsed s.usedSignatures h },
            [.markConsumed h, .transfer token user amount])
  | .receiveMessage _caller target payload fromChainId sigs =>
    if s.paused then .error "Contract paused"
    else
      let h := env.keccakBytes
        (messageDigestBytes target payload fromChainId)
      if s.usedSignatures h then .error "Signatures already used"
      else match Gateway.verifySignatures s.isRelayer
          s.signatureThreshold (env.recover h) sigs with
        | .error e => .error e
        | .ok () =>
          .ok ({ s with usedSignatures := setUsed s.usedSignatures h },
            [.markConsumed h, .call target payload])

/-! ## Relay coordinator signature pool
(`src/relayer/src/multiChainRelayer.js`, `storeSig` lines 252-274 and the
threshold check of `trySubmit` lines 276-304)

`storeSig` adds the raw signature string to a JS `Set` (in memory) and to
the on-disk array guarded by `!disk.sigs.includes(sig)` — both deduplicate
by the raw signature byte string, preserving insertion order; the
submission threshold compares the number of stored distinct byte strings
against `config.signatureThreshold`. A signature blob is a `Nat`. -/

/-- One `storeSig` pool update: add the raw signature unless that exact
byte string is already present. -/
def storeSig (sigs : List Nat) (sig : Nat) : List Nat :=
  if sig ∈ sigs then sigs else sigs ++ [sig]

/-! ## Relay coordinator submission retry loop
(`src/relayer/src/multiChainRelayer.js`, `trySubmit` lines 354-424)

`outcome a` tells whether on-chain submission attempt number `a`
(1-indexed) succeeds; the RPC/revert behaviour is external. The loop is
`while (attempt < maxAttempts && !success)`; a failed attempt sleeps
`200 * 2^(attempt-1)` ms; success deletes the pending record and releases
the per-digest lock, and a fully failed loop releases the lock
afterwards. -/

/-- `config.submitMaxAttempts || 4`: JS `||` falls back on the default for
a missing **or zero** configured value. -/
def submitMaxAttempts : Option Nat → Nat
  | none => 4
  | some 0 => 4
  | some (k + 1) => k + 1

structure SubmitResult where
  attempts : Nat
  success : Bool
  backoffs : List Nat
  lockReleased : Bool
deriving DecidableEq

/-- The retry loop body; `remaining` is `maxAttempts - attempt`, `acc` the
backoffs slept so far (most recent first). -/
def submitLoopAux (outcome : Nat → Bool) :
    Nat → Nat → List Nat → SubmitResult
  | 0, attempt, acc =>
    { attempts := attempt, success := false, backoffs := acc.reverse,
      lockReleased := true }
  | remaining + 1, attempt, acc =>
    if outcome (attempt + 1) then
      { attempts := attempt + 1, success := true,
        backoffs := acc.reverse, lockReleased := true }
    else
      submitLoopAux outcome remaining (attempt + 1)
        (200 * 2 ^ attempt :: acc)

/-- The whole submission retry phase of `trySubmit`. -/
def trySubmitLoop (outcome : Nat → Bool) (cfg : Option Nat) :
    SubmitResult :=
  submitLoopAux outcome (submitMaxAttempts cfg) 0 []

/-- The number of attempts that slept a backoff: every attempt except a
final successful one. -/
def failedAttempts (r : SubmitResult) : Nat :=
  r.attempts - (if r.success then 1 else 0)

/-- The quorum check of `trySubmit` (lines 292-293): proceed only when the
pool holds at least `config.signatureThreshold` stored signatures. -/
def poolMeetsThreshold (sigs : List Nat) (required : Nat) : Bool :=
  required ≤ sigs.length

/-! ## Theorems -/

theorem checkSigners_ok_iff_aux (isR : Nat → Bool) (bs ds : String) :
    ∀ (l seen : List Nat), seen.Nodup →
      (checkSigners isR bs ds seen l = .ok () ↔
        (∀ a ∈ l, isR a) ∧ (seen ++ l).Nodup) := by
  intro l
  induction l with
  | nil => intro seen hseen; simp [checkSigners, hseen]
  | cons a rest ih =>
    intro seen hseen
    simp only [checkSigners]
    by_cases ha : isR a
    · by_cases hmem : a ∈ seen
      · have : ¬(seen ++ a :: rest).Nodup := by
          intro hnd
          rcases List.nodup_append.mp hnd with ⟨_, _, hdisj⟩
          exact hdisj hmem (List.mem_cons_self a rest)
        simp [ha, hmem, this]
      · have hseen' : (seen ++ [a]).Nodup := by
          rw [List.nodup_append]
          exact ⟨hseen, List.nodup_singleton a, by simpa using hmem⟩
        have happ : seen ++ [a] ++ rest = seen ++ a :: rest := by
          simp
        rw [if_neg (by simp [ha]), if_neg (by simpa using hmem),
          ih (seen ++ [a]) hseen', happ]
        constructor
        · rintro ⟨h1, h2⟩
          refine ⟨fun x hx => ?_, h2⟩
          rcases List.mem_cons.mp hx with rfl | hx
          · exact ha
          · exact h1 x hx
        · rintro ⟨h1, h2⟩
          exact ⟨fun x hx => h1 x (List.mem_cons_of_mem a hx), h2⟩
    · have : ¬∀ x ∈ a :: rest, isR x := by
        intro h; exact ha (h a (List.mem_cons_self a rest))
      simp [ha, this]

theorem checkSigners_ok_iff (isR : Nat → Bool) (bs ds : String)
    (l : List Nat) :
    checkSigners isR bs ds [] l = .ok () ↔
      (∀ a ∈ l, isR a) ∧ l.Nodup := by
  simpa using checkSigners_ok_iff_aux isR bs ds l [] List.nodup_nil

theorem checkSigners_error_invalid (isR : Nat → Bool) (bs ds : String) :
    ∀ (l seen : List Nat), (seen ++ l).Nodup →
      (∃ a ∈ l, ¬isR a) → checkSigners isR bs ds seen l = .error bs := by
  intro l
  induction l with
  | nil => intro seen _ h; simp at h
  | cons a rest ih =>
    intro seen hnd hex
    simp only [checkSigners]
    by_cases ha : isR a
    · have hmem : a ∉ seen := by
        intro hc
        rcases List.nodup_append.mp hnd with ⟨_, _, hdisj⟩
        exact hdisj hc (List.mem_cons_self a rest)
      rw [if_neg (by simp [ha]), if_neg (by simpa using hmem)]
      refine ih (seen ++ [a]) (by simpa using hnd) ?_
      rcases hex with ⟨x, hx, hxr⟩
      rcases List.mem_cons.mp hx with rfl | hx
      · exact absurd ha hxr
      · exact ⟨x, hx, hxr⟩
    · simp [ha]

theorem checkSigners_error_dup (isR : Nat → Bool) (bs ds : String) :
    ∀ (l seen : List Nat), seen.Nodup → (∀ a ∈ l, isR a) →
      ¬(seen ++ l).Nodup → checkSigners isR bs ds seen l = .error ds := by
  intro l
  induction l with
  | nil => intro seen hseen _ hnd; simp [hseen] at hnd
  | cons a rest ih =>
    intro seen hseen hall hnd
    have ha : isR a := hall a (List.mem_cons_self a rest)
    simp only [checkSigners]
    by_cases hmem : a ∈ seen
    · simp [ha, hmem]
    · have hseen' : (seen ++ [a]).Nodup := by
        rw [List.nodup_append]
        exact ⟨hseen, List.nodup_singleton a, by simpa using hmem⟩
      rw [if_neg (by simp [ha]), if_neg (by simpa using hmem)]
      refine ih (seen ++ [a]) hseen'
        (fun x hx => hall x (List.mem_cons_of_mem a hx)) ?_
      simpa using hnd

/-- C2: Quorum verification (both `Gateway._verifySignatures` and
`GatewayV3._verifyQuorum`) accepts exactly when the signature list is at
least `signatureThreshold` long, every recovered signer is an active relayer
and all recovered signers are pairwise distinct — for `GatewayV3` the
recovered signers are those of the first `threshold` signatures, and a
positive threshold is additionally required. Each violation yields its
specific reason: too few signatures (`"Not enough signatures"` /
`"not enough signatures"`), an inactive signer (`"Invalid signer"` /
`"invalid signer"`), a repeated signer (`"Duplicate signer"` /
`"duplicate signature"`). -/
theorem quorum_verification_characterisation (isR : Nat → Bool)
    (thr : Nat) (recover : Nat → Nat) (sigs : List Nat) :
    (Gateway.verifySignatures isR thr recover sigs = .ok () ↔
      thr ≤ sigs.length ∧ (∀ a ∈ sigs.map recover, isR a) ∧
        (sigs.map recover).Nodup)
    ∧ (sigs.length < thr →
        Gateway.verifySignatures isR thr recover sigs =
          .error "Not enough signatures")
    ∧ (thr ≤ sigs.length → (sigs.map recover).Nodup →
        (∃ a ∈ sigs.map recover, ¬isR a) →
        Gateway.verifySignatures isR thr recover sigs =
          .error "Invalid signer")
    ∧ (thr ≤ sigs.length → (∀ a ∈ sigs.map recover, isR a) →
        ¬(sigs.map recover).Nodup →
        Gateway.verifySignatures isR thr recover sigs =
          .error "Duplicate signer")
    ∧ (GatewayV3.verifyQuorum isR thr recover sigs = .ok () ↔
        0 < thr ∧ thr ≤ sigs.length ∧
          (∀ a ∈ (sigs.take thr).map recover, isR a) ∧
          ((sigs.take thr).map recover).Nodup)
    ∧ (0 < thr → sigs.length < thr →
        GatewayV3.verifyQuorum isR thr recover sigs =
          .error "not enough signatures")
    ∧ (0 < thr → thr ≤ sigs.length → ((sigs.take thr).map recover).Nodup →
        (∃ a ∈ (sigs.take thr).map recover, ¬isR a) →
        GatewayV3.verifyQuorum isR thr recover sigs =
          .error "invalid signer")
    ∧ (0 < thr → thr ≤ sigs.length →
        (∀ a ∈ (sigs.take thr).map recover, isR a) →
        ¬((sigs.take thr).map recover).Nodup →
        GatewayV3.verifyQuorum isR thr recover sigs =
          .error "duplicate signature") := by
  refine ⟨?_, ?_, ?_, ?_, ?_, ?_, ?_, ?_⟩
  · rw [Gateway.verifySignatures]
    by_cases hlen : sigs.length < thr
    · rw [if_pos hlen]
      constructor
      · intro h; exact absurd h (by simp)
      · rintro ⟨h, _⟩; omega
    · rw [if_neg hlen, checkSigners_ok_iff]
      have : thr ≤ sigs.length := Nat.le_of_not_lt hlen
      tauto
  · intro hlen; rw [Gateway.verifySignatures, if_pos hlen]
  · intro hlen hnd hex
    rw [Gateway.verifySignatures, if_neg (Nat.not_lt.mpr hlen)]
    exact checkSigners_error_invalid isR _ _ _ [] (by simpa using hnd) hex
  · intro hlen hall hnd
    rw [Gateway.verifySignatures, if_neg (Nat.not_lt.mpr hlen)]
    exact checkSigners_error_dup isR _ _ _ [] List.nodup_nil hall
      (by simpa using hnd)
  · rw [GatewayV3.verifyQuorum]
    by_cases hthr : thr = 0
    · simp [hthr]
    · by_cases hlen : sigs.length < thr
      · rw [if_neg hthr, if_pos hlen]
        constructor
        · intro h; exact absurd h (by simp)
        · rintro ⟨_, h, _⟩; omega
      · rw [if_neg hthr, if_neg hlen, checkSigners_ok_iff]
        have h1 : 0 < thr := Nat.pos_of_ne_zero hthr
        have h2 : thr ≤ sigs.length := Nat.le_of_not_lt hlen
        tauto
  · intro hthr hlen
    rw [GatewayV3.verifyQuorum, if_neg (by omega), if_pos hlen]
  · intro hthr hlen hnd hex
    rw [GatewayV3.verifyQuorum, if_neg (by omega),
      if_neg (Nat.not_lt.mpr hlen)]
    exact checkSigners_error_invalid isR _ _ _ [] (by simpa using hnd) hex
  · intro hthr hlen hall hnd
    rw [GatewayV3.verifyQuorum, if_neg (by omega),
      if_neg (Nat.not_lt.mpr hlen)]
    exact checkSigners_error_dup isR _ _ _ [] List.nodup_nil hall
      (by simpa using hnd)

/-- Witness for C2: with two active relayers `1, 2`, threshold `2` and the
identity recovery oracle, `[1, 2]` is accepted by both verifiers, a single
signature is rejected for its count, an inactive signer `3` is rejected as
invalid, and a repeated signer is rejected as a duplicate. -/
theorem quorum_verification_characterisation_witness :
    Gateway.verifySignatures (fun a => a = 1 ∨ a = 2) 2 id [1, 2] = .ok ()
    ∧ Gateway.verifySignatures (fun a => a = 1 ∨ a = 2) 2 id [1] =
        .error "Not enough signatures"
    ∧ GatewayV3.verifyQuorum (fun a => a = 1 ∨ a = 2) 2 id [1, 3] =
        .error "invalid signer"
    ∧ GatewayV3.verifyQuorum (fun a => a = 1 ∨ a = 2) 2 id [1, 1] =
        .error "duplicate signature" :=
  ⟨(quorum_verification_characterisation _ 2 id [1, 2]).1.mpr
      ⟨by decide, by decide, by decide⟩,
   (quorum_verification_characterisation _ 2 id [1]).2.1 (by decide),
   (quorum_verification_characterisation _ 2 id [1, 3]).2.2.2.2.2.2.1
      (by decide) (by decide) (by decide) ⟨3, by decide, by decide⟩,
   (quorum_verification_characterisation _ 2 id [1, 1]).2.2.2.2.2.2.2
      (by decide) (by decide) (by decide) (by decide)⟩

/-- C10: `GatewayV3._verifyQuorum` reads only the first `threshold`
signatures; two signature arrays of sufficient length agreeing on their
first `threshold` entries produce the same accept/reject outcome. -/
theorem verifyQuorum_ignores_extra_signatures (isR : Nat → Bool)
    (thr : Nat) (recover : Nat → Nat) (sigs₁ sigs₂ : List Nat)
    (h₁ : thr ≤ sigs₁.length) (h₂ : thr ≤ sigs₂.length)
    (hpre : sigs₁.take thr = sigs₂.take thr) :
    GatewayV3.verifyQuorum isR thr recover sigs₁ =
      GatewayV3.verifyQuorum isR thr recover sigs₂ := by
  rw [GatewayV3.verifyQuorum, GatewayV3.verifyQuorum,
    if_neg (Nat.not_lt.mpr h₁), if_neg (Nat.not_lt.mpr h₂), hpre]

/-- Witness for C10: appending a malformed duplicate entry after the first
`threshold` signatures does not change the verdict. -/
theorem verifyQuorum_ignores_extra_signatures_witness :
    GatewayV3.verifyQuorum (fun a => a = 1 ∨ a = 2) 2 id [1, 2] =
      GatewayV3.verifyQuorum (fun a => a = 1 ∨ a = 2) 2 id [1, 2, 1, 99] :=
  verifyQuorum_ignores_extra_signatures _ 2 id [1, 2] [1, 2, 1, 99]
    (by decide) (by decide) (by decide)

/-- C7 counterexample: in the freshly-deployed `RelayerManager` (zero active
relayers — a reachable state, since the constructor registers none),
`signatureThreshold()` returns `0`, not `⌊2·0/3⌋ + 1 = 1`. -/
theorem signatureThreshold_zero_counterexample :
    signatureThreshold RelayerManagerState.init = 0 ∧
      RelayerManagerState.init.relayerSet.length * 2 / 3 + 1 = 1 := by
  constructor <;> rfl

/-- C7 (amended): `signatureThreshold()` returns `⌊2n/3⌋ + 1` whenever the
live `relayerSet` is non-empty and `0` when it is empty, where `n` is the
length of `relayerSet` at the moment of the call; the value tracks every
`stake`/`unstake` membership change with no caching. -/
theorem signatureThreshold_live (s : RelayerManagerState) :
    (s.relayerSet.length ≠ 0 →
      signatureThreshold s = s.relayerSet.length * 2 / 3 + 1)
    ∧ (s.relayerSet.length = 0 → signatureThreshold s = 0)
    ∧ (∀ minStake transferOk caller s',
        RelayerManager.stake minStake transferOk s caller = .ok s' →
        signatureThreshold s' = (s.relayerSet.length + 1) * 2 / 3 + 1)
    ∧ (∀ transferOk caller s',
        RelayerManager.unstake transferOk s caller = .ok s' →
        caller ∈ s.relayerSet →
        signatureThreshold s' =
          if s.relayerSet.length - 1 = 0 then 0
          else (s.relayerSet.length - 1) * 2 / 3 + 1) := by
  refine ⟨?_, ?_, ?_, ?_⟩
  · intro h; rw [signatureThreshold, if_neg h]
  · intro h; rw [signatureThreshold, if_pos h]
  · intro minStake transferOk caller s' hok
    rw [RelayerManager.stake] at hok
    split at hok
    · exact absurd hok (by simp)
    · split at hok
      · exact absurd hok (by simp)
      · cases hok
        simp [signatureThreshold]
  · intro transferOk caller s' hok hmem
    rw [RelayerManager.unstake] at hok
    split at hok
    · exact absurd hok (by simp)
    · split at hok
      · exact absurd hok (by simp)
      · cases hok
        have hlen : (removeSwapPop caller s.relayerSet).length =
            s.relayerSet.length - 1 := by
          rw [removeSwapPop, if_pos hmem, List.length_dropLast,
            List.length_set]
        simp only [signatureThreshold, hlen]

/-- Witness for C7 (amended): starting from the empty manager, one stake by
relayer `7` yields the concrete post-state below, whose threshold is
`⌊2·1/3⌋ + 1 = 1`. -/
theorem signatureThreshold_live_witness :
    signatureThreshold
      { stakes := fun a => if a = 7 then 5 else 0,
        relayerSet := [7],
        isRelayer := fun a => if a = 7 then true else false } = 1 :=
  (signatureThreshold_live RelayerManagerState.init).2.2.1 5 true 7 _ rfl

theorem pairUp_length (hash2 : α → α → α) (zero : α) :
    ∀ l : List α, (pairUp hash2 zero l).length = (l.length + 1) / 2
  | [] => by simp [pairUp]
  | [a] => by simp [pairUp]
  | a :: b :: rest => by
    simp only [pairUp, List.length_cons, pairUp_length hash2 zero rest]
    omega

theorem nat_xor_one (k : Nat) :
    k ^^^ 1 = if k % 2 = 0 then k + 1 else k - 1 := by
  have hb : Nat.bit (decide (k % 2 = 1)) (k >>> 1) = k :=
    Nat.bit_decide_mod_two_eq_one_shiftRight_one k
  have step : k ^^^ 1 =
      Nat.bit (decide (k % 2 = 1) != true) ((k >>> 1) ^^^ 0) := by
    have h2 := Nat.xor_bit (decide (k % 2 = 1)) (k >>> 1) true 0
    rw [hb] at h2
    exact h2
  rw [step]
  rcases Nat.mod_two_eq_zero_or_one k with h | h
  · rw [if_pos h, show decide (k % 2 = 1) = false by simp [h]]
    simp [Nat.bit, Nat.shiftRight_one]
    omega
  · rw [if_neg (by omega), show decide (k % 2 = 1) = true by simp [h]]
    simp [Nat.bit, Nat.shiftRight_one]
    omega

/-- The node built at position `k` of `pairUp l` combines the nodes at
positions `2k` and `2k + 1` of `l` (the latter read as `zero` past the
end). -/
theorem pairUp_getD (hash2 : α → α → α) (zero : α) :
    ∀ (l : List α) (k : Nat), 2 * k < l.length →
      (pairUp hash2 zero l).getD k zero =
        hash2 (l.getD (2 * k) zero) (l.getD (2 * k + 1) zero)
  | [], k => by intro h; simp at h
  | [a], k => by
    intro h
    have hk : k = 0 := by simp at h; omega
    subst hk
    simp [pairUp]
  | a :: b :: rest, k => by
    intro h
    cases k with
    | zero => simp [pairUp]
    | succ k' =>
      have hlt : 2 * k' < rest.length := by
        simp only [List.length_cons] at h; omega
      have h1 : 2 * (k' + 1) = 2 * k' + 1 + 1 := by omega
      have h2 : 2 * (k' + 1) + 1 = 2 * k' + 1 + 1 + 1 := by omega
      simp only [pairUp, List.getD_cons_succ, h1, h2]
      exact pairUp_getD hash2 zero rest k' hlt

theorem byteOfBits_div_mod : ∀ (bs : List Bool) (m : Nat), m < bs.length →
    byteOfBits bs / 2 ^ m % 2 = (if bs.getD m false then 1 else 0) := by
  intro bs
  induction bs with
  | nil => intro m h; simp at h
  | cons b rest ih =>
    intro m h
    cases m with
    | zero =>
      simp only [byteOfBits, pow_zero, Nat.div_one, List.getD_cons_zero]
      cases b <;> simp <;> omega
    | succ m =>
      have hlt : m < rest.length := by simp at h; omega
      have h2 : byteOfBits (b :: rest) / 2 = byteOfBits rest := by
        simp only [byteOfBits]; cases b <;> simp <;> omega
      have h3 : byteOfBits (b :: rest) / 2 ^ (m + 1) =
          byteOfBits (b :: rest) / 2 / 2 ^ m := by
        rw [Nat.div_div_eq_div_mul, pow_succ, mul_comm (2 ^ m) 2]
      rw [List.getD_cons_succ, h3, h2, ih m hlt]

theorem packChunks_getD : ∀ (ds : List Bool) (i : Nat), i < ds.length →
    (packChunks ds).getD (i / 8) 0 / 2 ^ (i % 8) % 2 =
      (if ds.getD i false then 1 else 0)
  | [], i => by intro h; simp at h
  | d :: rest, i => by
    intro h
    by_cases h8 : i < 8
    · rw [packChunks, Nat.div_eq_of_lt h8, List.getD_cons_zero,
        Nat.mod_eq_of_lt h8]
      have htk : i < ((d :: rest).take 8).length := by
        rw [List.length_take]; exact Nat.lt_min.mpr ⟨h8, h⟩
      rw [byteOfBits_div_mod _ i htk]
      have : ((d :: rest).take 8).getD i false = (d :: rest).getD i false := by
        rw [List.getD_eq_getElem?_getD, List.getD_eq_getElem?_getD,
          List.getElem?_take_of_lt h8]
      rw [this]
    · push_neg at h8
      rw [packChunks]
      have hi8 : i / 8 = (i - 8) / 8 + 1 := by omega
      rw [hi8, List.getD_cons_succ]
      have hlen : i - 8 < ((d :: rest).drop 8).length := by
        simp only [List.length_drop, List.length_cons]
        simp only [List.length_cons] at h
        omega
      have hrec := packChunks_getD ((d :: rest).drop 8) (i - 8) hlen
      rw [show (i - 8) % 8 = i % 8 from by omega] at hrec
      rw [hrec]
      have : ((d :: rest).drop 8).getD (i - 8) false =
          (d :: rest).getD i false := by
        rw [List.getD_eq_getElem?_getD, List.getD_eq_getElem?_getD,
          List.getElem?_drop, show 8 + (i - 8) = i from by omega]
      rw [this]
  termination_by ds i => ds.length
  decreasing_by simp [List.length_drop]; omega

/-- Bit `i` of the packed bitmask, read the way
`LightClientMerkle.verifyProof` reads it, is direction `i`. -/
theorem packDirections_bit (dirs : List Bool) (i : Nat)
    (h : i < dirs.length) :
    bitmaskBit (packDirections dirs) i = dirs.getD i false := by
  have hne : ¬dirs.isEmpty = true := by
    cases dirs
    · simp at h
    · simp
  rw [bitmaskBit, packDirections, if_neg hne]
  have h3 : i >>> 3 = i / 8 := by
    rw [Nat.shiftRight_eq_div_pow]
  have h7 : i &&& 7 = i % 8 := by
    have h' := Nat.and_pow_two_sub_one_eq_mod i 3
    norm_num at h'
    exact h'
  rw [h3, h7, Nat.shiftRight_eq_div_pow, Nat.and_one_is_mod,
    packChunks_getD dirs i h]
  cases dirs.getD i false <;> simp

theorem foldBitmask_eq_foldPairs (hash2 : α → α → α) (bm : List Nat) :
    ∀ (sibs : List α) (dirs : List Bool) (i : Nat) (c : α),
      sibs.length = dirs.length →
      (∀ j, j < sibs.length → bitmaskBit bm (i + j) = dirs.getD j false) →
      foldBitmask hash2 bm c sibs i = foldPairs hash2 c (sibs.zip dirs) := by
  intro sibs
  induction sibs with
  | nil =>
    intro dirs i c _ _
    cases dirs <;> simp [foldBitmask, foldPairs]
  | cons sib rest ih =>
    intro dirs i c hlen hbit
    cases dirs with
    | nil => simp at hlen
    | cons d drest =>
      rw [List.zip_cons_cons]
      simp only [foldPairs, foldBitmask]
      have h0 : bitmaskBit bm i = d := by simpa using hbit 0 (by simp)
      rw [h0]
      apply ih drest (i + 1) _ (by simpa using hlen)
      intro j hj
      have hb := hbit (j + 1) (by simp only [List.length_cons]; omega)
      rw [show i + 1 + j = i + (j + 1) from by omega]
      simpa using hb

theorem buildLayersF_of_small (hash2 : α → α → α) (zero : α) (fuel : Nat)
    (l : List α) (hlen : l.length ≤ 1) :
    buildLayersF hash2 zero fuel l = .ok [l] := by
  cases fuel <;> rw [buildLayersF.eq_def, if_pos hlen]

theorem buildLayersF_zero_of_big (hash2 : α → α → α) (zero : α)
    (l : List α) (hlen : ¬l.length ≤ 1) :
    buildLayersF hash2 zero 0 l =
      .error "buildMerkle: exceeded max iterations" := by
  rw [buildLayersF.eq_def, if_neg hlen]

theorem buildLayersF_succ_of_big (hash2 : α → α → α) (zero : α)
    (fuel : Nat) (l : List α) (hlen : ¬l.length ≤ 1) :
    buildLayersF hash2 zero (fuel + 1) l =
      match buildLayersF hash2 zero fuel (pairUp hash2 zero l) with
      | .error e => .error e
      | .ok rest => .ok (l :: rest) := by
  rw [buildLayersF.eq_def, if_neg hlen]

theorem foldPairs_proofWalk_base (hash2 : α → α → α) (zero : α)
    (l : List α) (idx : Nat) (hidx : idx < l.length)
    (hlen : l.length ≤ 1) :
    foldPairs hash2 (l.getD idx zero) (proofWalk zero [l] idx) =
      rootOfLayers zero [l] := by
  have hidx0 : idx = 0 := by omega
  subst hidx0
  cases l with
  | nil => simp at hidx
  | cons a rest =>
    have hr : rest = [] := by
      cases rest
      · rfl
      · simp at hlen
    subst hr
    simp [proofWalk, foldPairs, rootOfLayers]

theorem buildLayersF_ne_nil (hash2 : α → α → α) (zero : α) :
    ∀ (fuel : Nat) (l : List α) (layers : List (List α)),
      buildLayersF hash2 zero fuel l = .ok layers → layers ≠ [] := by
  intro fuel l layers hok
  by_cases hlen : l.length ≤ 1
  · rw [buildLayersF_of_small hash2 zero fuel l hlen] at hok
    cases hok
    simp
  · cases fuel with
    | zero =>
      rw [buildLayersF_zero_of_big hash2 zero l hlen] at hok
      exact absurd hok (by simp)
    | succ f =>
      rw [buildLayersF_succ_of_big hash2 zero f l hlen] at hok
      cases hrec : buildLayersF hash2 zero f (pairUp hash2 zero l) with
      | error e => rw [hrec] at hok; exact absurd hok (by simp)
      | ok rest => rw [hrec] at hok; cases hok; simp

/-- Core induction: if `buildMerkle`'s layer construction succeeds within
its fuel, then for every leaf index the (sibling, direction) walk folds the
leaf back to `layers[layers.length - 1][0]`. -/
theorem foldPairs_proofWalk (hash2 : α → α → α) (zero : α) :
    ∀ (fuel : Nat) (l : List α) (idx : Nat) (layers : List (List α)),
      idx < l.length →
      buildLayersF hash2 zero fuel l = .ok layers →
      foldPairs hash2 (l.getD idx zero) (proofWalk zero layers idx) =
        rootOfLayers zero layers := by
  intro fuel
  induction fuel with
  | zero =>
    intro l idx layers hidx hok
    by_cases hlen : l.length ≤ 1
    · rw [buildLayersF_of_small hash2 zero 0 l hlen] at hok
      cases hok
      exact foldPairs_proofWalk_base hash2 zero l idx hidx hlen
    · rw [buildLayersF_zero_of_big hash2 zero l hlen] at hok
      exact absurd hok (by simp)
  | succ f ih =>
    intro l idx layers hidx hok
    by_cases hlen : l.length ≤ 1
    · rw [buildLayersF_of_small hash2 zero (f + 1) l hlen] at hok
      cases hok
      exact foldPairs_proofWalk_base hash2 zero l idx hidx hlen
    · rw [buildLayersF_succ_of_big hash2 zero f l hlen] at hok
      cases hrec : buildLayersF hash2 zero f (pairUp hash2 zero l) with
      | error e => rw [hrec] at hok; exact absurd hok (by simp)
      | ok rest =>
        rw [hrec] at hok
        cases hok
        obtain ⟨r0, rest', rfl⟩ :
            ∃ r0 rest', rest = r0 :: rest' := by
          cases rest with
          | nil => exact absurd rfl (buildLayersF_ne_nil hash2 zero f _ _ hrec)
          | cons r0 rest' => exact ⟨r0, rest', rfl⟩
        simp only [proofWalk, foldPairs]
        have hcomp :
            (if (idx % 2 == 1) then
              hash2 (l.getD (idx ^^^ 1) zero) (l.getD idx zero)
             else hash2 (l.getD idx zero) (l.getD (idx ^^^ 1) zero)) =
            (pairUp hash2 zero l).getD (idx / 2) zero := by
          by_cases hpar : idx % 2 = 0
          · rw [nat_xor_one, if_pos hpar,
              show (idx % 2 == 1) = false by simp [hpar],
              pairUp_getD hash2 zero l (idx / 2) (by omega),
              show 2 * (idx / 2) = idx from by omega]
            simp
          · rw [nat_xor_one, if_neg hpar,
              show (idx % 2 == 1) = true by
                simp only [beq_iff_eq]; omega,
              pairUp_getD hash2 zero l (idx / 2) (by omega),
              show 2 * (idx / 2) = idx - 1 from by omega,
              show idx - 1 + 1 = idx from by omega]
            simp
        rw [hcomp]
        have hlt : idx / 2 < (pairUp hash2 zero l).length := by
          rw [pairUp_length]; omega
        rw [ih (pairUp hash2 zero l) (idx / 2) (r0 :: rest') hlt hrec]
        simp [rootOfLayers, List.getLastD_cons]

/-- C3: for every non-empty leaf list on which `buildMerkle` succeeds and
every leaf index, folding that leaf's sibling proof with its packed
direction bitmask — read low-bit-first per byte exactly as
`LightClientMerkle.verifyProof` reads it, bit clear meaning the computed
value is the left hash operand and bit set meaning the sibling is —
reconstructs the root of the same build; and a single-leaf input yields the
leaf itself as root with an empty proof. -/
theorem merkle_proof_roundtrip {β : Type} (hash2 : β → β → β) (zero : β)
    (leaves : List β) (idx : Nat) (layers : List (List β))
    (hne : leaves ≠ []) (hidx : idx < leaves.length)
    (hbuild : buildLayersF hash2 zero 256 leaves = .ok layers) :
    (foldBitmask hash2 (proofPathOf zero layers idx)
        (leaves.getD idx zero) (proofSibsOf zero layers idx) 0 =
      rootOfLayers zero layers)
    ∧ (∀ a : β, buildLayersF hash2 zero 256 [a] = .ok [[a]]
        ∧ rootOfLayers zero [[a]] = a
        ∧ proofSibsOf zero [[a]] 0 = []) := by
  constructor
  · have hzip :
        (proofSibsOf zero layers idx).zip
            ((proofWalk zero layers idx).map Prod.snd) =
          proofWalk zero layers idx := by
      rw [proofSibsOf, List.zip_map' Prod.fst Prod.snd]
      simp
    have hfold := foldBitmask_eq_foldPairs hash2
      (proofPathOf zero layers idx) (proofSibsOf zero layers idx)
      ((proofWalk zero layers idx).map Prod.snd) 0
      (leaves.getD idx zero)
      (by simp [proofSibsOf])
      (by
        intro j hj
        simp only [Nat.zero_add]
        exact packDirections_bit _ j
          (by simpa [proofSibsOf] using hj))
    rw [hfold, hzip]
    exact foldPairs_proofWalk hash2 zero 256 leaves idx layers hidx hbuild
  · intro a
    exact ⟨buildLayersF_of_small hash2 zero 256 [a] (by simp), rfl, rfl⟩

/-- Witness for C3: the concrete three-leaf tree `[10, 20, 30]` with the
pairing function `fun a b => 2*a + 3*b + 1` and sentinel `0`; leaf 2's
proof folds back to the root 346. -/
theorem merkle_proof_roundtrip_witness :
    foldBitmask (fun a b => 2 * a + 3 * b + 1)
        (proofPathOf 0 [[10, 20, 30], [81, 61], [346]] 2)
        (([10, 20, 30] : List Nat).getD 2 0)
        (proofSibsOf 0 [[10, 20, 30], [81, 61], [346]] 2) 0 =
      rootOfLayers 0 [[10, 20, 30], [81, 61], [346]] :=
  (merkle_proof_roundtrip (fun a b => 2 * a + 3 * b + 1) 0
    [10, 20, 30] 2 [[10, 20, 30], [81, 61], [346]]
    (by simp) (by simp) (by rfl)).1

/-- C5 counterexample: the one-byte receipt `[0xc0]` — an RLP list whose
payload is empty (`_rlpItemPayload` reports payload length `0`), so it
contains none of the four required fields, in particular no 256-byte bloom
field (that alone would force at least 257 bytes) — is nonetheless hashed
into a leaf and **accepted** by `LightClientMerkle.verifyProof` whenever
the stored root matches that leaf hash (concretely: `keccak` constantly `5`
and root `5`). The structural violation is thus not rejected before the
leaf hash or the merkle fold. -/
theorem verifyProof_accepts_malformed_receipt :
    LightClientMerkle.verifyProof (fun _ => 5) (fun _ => 5) 0
        [0xc0] [] [] = true
    ∧ rlpItemPayload [0xc0] 0 = .ok (1, 0)
    ∧ ([0xc0] : List Nat).length = 1 := by
  exact ⟨rfl, rfl, rfl⟩

/-- C5 (amended): the inclusion verifier's structural gate consists only of
the three checks visible in the code — receipt non-empty, leading RLP list
tag, bitmask covering all siblings — each of which rejects on its own; and
any accepted proof passed all three and folded to the stored (non-zero)
root. The four-field envelope validation described in the spec is not
performed by the verifier. -/
theorem verifyProof_structural_gate (keccak : List Nat → Nat)
    (rootOf : Nat → Nat) (headerId : Nat) (receiptRLP : List Nat)
    (siblings bitmask : List Nat) :
    (rootOf headerId = 0 →
      LightClientMerkle.verifyProof keccak rootOf headerId receiptRLP
        siblings bitmask = false)
    ∧ (receiptRLP = [] →
      LightClientMerkle.verifyProof keccak rootOf headerId receiptRLP
        siblings bitmask = false)
    ∧ (receiptRLP.headD 0 < 0xc0 →
      LightClientMerkle.verifyProof keccak rootOf headerId receiptRLP
        siblings bitmask = false)
    ∧ (bitmask.length * 8 < siblings.length →
      LightClientMerkle.verifyProof keccak rootOf headerId receiptRLP
        siblings bitmask = false)
    ∧ (LightClientMerkle.verifyProof keccak rootOf headerId receiptRLP
        siblings bitmask = true →
      receiptRLP ≠ [] ∧ 0xc0 ≤ receiptRLP.headD 0 ∧
        siblings.length ≤ bitmask.length * 8 ∧ rootOf headerId ≠ 0 ∧
        foldBitmask (fun a b => keccak (wordBytes a ++ wordBytes b))
          bitmask (keccak receiptRLP) siblings 0 = rootOf headerId) := by
  rw [LightClientMerkle.verifyProof]
  refine ⟨?_, ?_, ?_, ?_, ?_⟩
  · intro h; rw [if_pos h]
  · intro h
    subst h
    by_cases h0 : rootOf headerId = 0
    · rw [if_pos h0]
    · rw [if_neg h0, if_pos (show ([] : List Nat).length = 0 from rfl)]
  · intro h
    by_cases h0 : rootOf headerId = 0
    · rw [if_pos h0]
    · rw [if_neg h0]
      by_cases h1 : receiptRLP.length = 0
      · rw [if_pos h1]
      · rw [if_neg h1, if_pos h]
  · intro h
    by_cases h0 : rootOf headerId = 0
    · rw [if_pos h0]
    · rw [if_neg h0]
      by_cases h1 : receiptRLP.length = 0
      · rw [if_pos h1]
      · rw [if_neg h1]
        by_cases h2 : receiptRLP.headD 0 < 0xc0
        · rw [if_pos h2]
        · rw [if_neg h2, if_pos h]
  · intro hacc
    by_cases h0 : rootOf headerId = 0
    · rw [if_pos h0] at hacc; exact absurd hacc (by simp)
    · rw [if_neg h0] at hacc
      by_cases h1 : receiptRLP.length = 0
      · rw [if_pos h1] at hacc; exact absurd hacc (by simp)
      · rw [if_neg h1] at hacc
        by_cases h2 : receiptRLP.headD 0 < 0xc0
        · rw [if_pos h2] at hacc; exact absurd hacc (by simp)
        · rw [if_neg h2] at hacc
          by_cases h3 : bitmask.length * 8 < siblings.length
          · rw [if_pos h3] at hacc; exact absurd hacc (by simp)
          · rw [if_neg h3] at hacc
            refine ⟨?_, by omega, by omega, h0, by simpa using hacc⟩
            intro hnil
            exact h1 (by simp [hnil])

/-- Witness for C5 (amended): a receipt with a non-list leading byte `0x00`
is rejected by the gate. -/
theorem verifyProof_structural_gate_witness :
    LightClientMerkle.verifyProof (fun _ => 5) (fun _ => 5) 0
        [0x00, 0x01] [] [] = false :=
  (verifyProof_structural_gate (fun _ => 5) (fun _ => 5) 0
    [0x00, 0x01] [] []).2.2.1 (by decide)

theorem setUsed_mono (f : Nat → Bool) (h d : Nat) (hd : f d = true) :
    setUsed f h d = true := by
  rw [setUsed]
  split <;> simp [hd]

theorem setUsed_self (f : Nat → Bool) (h : Nat) : setUsed f h h = true := by
  simp [setUsed]

theorem gateway_step_used_mono (env : GwEnv) (s : GwState) (op : GwOp)
    (s' : GwState) (eff : List GwEffect)
    (hok : Gateway.step env s op = .ok (s', eff)) (d : Nat)
    (hd : s.usedSignatures d = true) : s'.usedSignatures d = true := by
  cases op <;>
    simp only [Gateway.step] at hok <;>
    repeat' split at hok
  all_goals
    first
      | exact Except.noConfusion hok
      | (cases hok; exact hd)
      | (cases hok; exact setUsed_mono _ _ _ hd)

theorem gatewayV3_step_used_mono (env : V3Env) (s : V3State) (op : V3Op)
    (s' : V3State) (eff : List V3Effect)
    (hok : GatewayV3.step env s op = .ok (s', eff)) (d : Nat)
    (hd : s.usedProofs d = true) : s'.usedProofs d = true := by
  cases op <;>
    simp only [GatewayV3.step] at hok <;>
    repeat' split at hok
  all_goals
    first
      | exact Except.noConfusion hok
      | (cases hok; exact hd)
      | (cases hok; exact setUsed_mono _ _ _ hd)

/-- C1: the replay guard is permanent and effective. (1)-(2): no operation
of either contract ever resets a consumed digest (`usedSignatures` in
`Gateway`, `usedProofs` in `GatewayV3`) back to false. (3)-(6): once a
digest is consumed, every further acceptance attempt for it is rejected
with the replay-specific reason (`"Signatures already used"`,
`"Proof already used"`, `"proof used"`); a rejecting call is a revert and
carries no external effect, so the mint/call effect cannot happen a second
time. -/
theorem replay_guard_permanent (genv : GwEnv) (venv : V3Env)
    (s : GwState) (v : V3State) :
    (∀ op s' eff, Gateway.step genv s op = .ok (s', eff) →
      ∀ d, s.usedSignatures d = true → s'.usedSignatures d = true)
    ∧ (∀ op v' eff, GatewayV3.step venv v op = .ok (v', eff) →
      ∀ d, v.usedProofs d = true → v'.usedProofs d = true)
    ∧ (∀ caller sender token amount fromChainId sigs,
      s.paused = false →
      s.usedSignatures (genv.keccakBytes
        (receiveDigestBytes sender token amount fromChainId)) = true →
      Gateway.step genv s
        (.receiveTokens caller sender token amount fromChainId sigs) =
        .error "Signatures already used")
    ∧ (∀ caller sender token amount fromChainId headerRoot proof lc,
      s.paused = false →
      s.usedSignatures (genv.keccakBytes (receiveProofDigestBytes sender
        token amount fromChainId headerRoot)) = true →
      Gateway.step genv s (.receiveTokensWithProof caller sender token
        amount fromChainId headerRoot proof lc) =
        .error "Proof already used")
    ∧ (∀ caller wrapped recipient amount h sigs,
      v.paused = false → v.usedProofs h = true →
      GatewayV3.step venv v
        (.mintWrapped caller wrapped recipient amount h sigs) =
        .error "proof used")
    ∧ (∀ caller fromChainId sender target data value h sigs,
      v.paused = false → v.usedProofs h = true →
      GatewayV3.step venv v (.executeMessage caller fromChainId sender
        target data value h sigs) = .error "proof used") := by
  refine ⟨?_, ?_, ?_, ?_, ?_, ?_⟩
  · intro op s' eff hok d hd
    exact gateway_step_used_mono genv s op s' eff hok d hd
  · intro op v' eff hok d hd
    exact gatewayV3_step_used_mono venv v op v' eff hok d hd
  · intro caller sender token amount fromChainId sigs hp hused
    simp [Gateway.step, hp, hused]
  · intro caller sender token amount fromChainId headerRoot proof lc
      hp hused
    simp [Gateway.step, hp, hused]
  · intro caller wrapped recipient amount h sigs hp hused
    simp [GatewayV3.step, hp, hused]
  · intro caller fromChainId sender target data value h sigs hp hused
    simp [GatewayV3.step, hp, hused]

/-- Witness for C1: in a concrete `Gateway` state in which every digest is
already consumed, a repeated `receiveTokens` submission fails with the
replay reason, and likewise `mintWrapped` on `GatewayV3`. -/
theorem replay_guard_permanent_witness :
    Gateway.step
      { recover := fun _ _ => 0, keccakBytes := fun _ => 7,
        lightClientVerify := fun _ _ _ => true, transferOk := true,
        mintOk := true, burnOk := true }
      { gateways := fun _ => 0, supportedTokens := fun _ => false,
        wrappedTokenMap := fun _ => 0, isRelayer := fun _ => false,
        signatureThreshold := 0, usedSignatures := fun _ => true,
        paused := false, multisig := 0, owner := 1 }
      (.receiveTokens 0 2 3 4 5 []) = .error "Signatures already used"
    ∧ GatewayV3.step
      { threshold := 1, isRelayer := fun _ => true,
        recover := fun _ sig => sig, chainid := 31337,
        chainEnabled := fun _ => true, tokenAllowed := fun _ _ => true,
        transferOk := true, mintOk := true, keccakStr := fun _ => 3,
        keccakBytes := fun _ => 4 }
      { usedProofs := fun _ => true, nonce := 0, paused := false,
        owner := 1 }
      (.mintWrapped 0 5 6 7 9 []) = .error "proof used" :=
  ⟨(replay_guard_permanent
      { recover := fun _ _ => 0, keccakBytes := fun _ => 7,
        lightClientVerify := fun _ _ _ => true, transferOk := true,
        mintOk := true, burnOk := true }
      { threshold := 1, isRelayer := fun _ => true,
        recover := fun _ sig => sig, chainid := 31337,
        chainEnabled := fun _ => true, tokenAllowed := fun _ _ => true,
        transferOk := true, mintOk := true, keccakStr := fun _ => 3,
        keccakBytes := fun _ => 4 }
      { gateways := fun _ => 0, supportedTokens := fun _ => false,
        wrappedTokenMap := fun _ => 0, isRelayer := fun _ => false,
        signatureThreshold := 0, usedSignatures := fun _ => true,
        paused := false, multisig := 0, owner := 1 }
      { usedProofs := fun _ => true, nonce := 0, paused := false,
        owner := 1 }).2.2.1 0 2 3 4 5 [] rfl rfl,
   (replay_guard_permanent
      { recover := fun _ _ => 0, keccakBytes := fun _ => 7,
        lightClientVerify := fun _ _ _ => true, transferOk := true,
        mintOk := true, burnOk := true }
      { threshold := 1, isRelayer := fun _ => true,
        recover := fun _ sig => sig, chainid := 31337,
        chainEnabled := fun _ => true, tokenAllowed := fun _ _ => true,
        transferOk := true, mintOk := true, keccakStr := fun _ => 3,
        keccakBytes := fun _ => 4 }
      { gateways := fun _ => 0, supportedTokens := fun _ => false,
        wrappedTokenMap := fun _ => 0, isRelayer := fun _ => false,
        signatureThreshold := 0, usedSignatures := fun _ => true,
        paused := false, multisig := 0, owner := 1 }
      { usedProofs := fun _ => true, nonce := 0, paused := false,
        owner := 1 }).2.2.2.2.1 0 5 6 7 9 [] rfl rfl⟩

/-- C4: in every accepting run of the four acceptance operations the
effect trace is exactly `[markConsumed digest, externalEffect]` — the
replay-guard store strictly precedes the mint/call, which occurs exactly
once — and the post-state has the digest consumed. Rejecting runs are
reverts (`Except.error`): they produce no post-state, no partial effect
and no consumption-flag write, by construction of the embedding. -/
theorem consumption_precedes_effect (genv : GwEnv) (venv : V3Env)
    (s : GwState) (v : V3State) :
    (∀ caller wrapped recipient amount h sigs v' eff,
      GatewayV3.step venv v
        (.mintWrapped caller wrapped recipient amount h sigs) =
        .ok (v', eff) →
      eff = [.markConsumed h, .mint wrapped recipient amount] ∧
        v'.usedProofs h = true)
    ∧ (∀ caller fromChainId sender target data value h sigs v' eff,
      GatewayV3.step venv v (.executeMessage caller fromChainId sender
        target data value h sigs) = .ok (v', eff) →
      eff = [.markConsumed h, .call target value data] ∧
        v'.usedProofs h = true)
    ∧ (∀ caller sender token amount fromChainId sigs s' eff,
      Gateway.step genv s
        (.receiveTokens caller sender token amount fromChainId sigs) =
        .ok (s', eff) →
      eff = [.markConsumed (genv.keccakBytes
          (receiveDigestBytes sender token amount fromChainId)),
        .mint (s.wrappedTokenMap token) sender amount] ∧
        s'.usedSignatures (genv.keccakBytes
          (receiveDigestBytes sender token amount fromChainId)) = true)
    ∧ (∀ caller sender token amount fromChainId headerRoot proof lc s'
        eff,
      Gateway.step genv s (.receiveTokensWithProof caller sender token
        amount fromChainId headerRoot proof lc) = .ok (s', eff) →
      eff = [.markConsumed (genv.keccakBytes (receiveProofDigestBytes
          sender token amount fromChainId headerRoot)),
        .mint (s.wrappedTokenMap token) sender amount] ∧
        s'.usedSignatures (genv.keccakBytes (receiveProofDigestBytes
          sender token amount fromChainId headerRoot)) = true) := by
  refine ⟨?_, ?_, ?_, ?_⟩
  · intro caller wrapped recipient amount h sigs v' eff hok
    simp only [GatewayV3.step] at hok
    repeat' split at hok
    all_goals
      first
        | exact Except.noConfusion hok
        | (cases hok; exact ⟨rfl, setUsed_self _ _⟩)
  · intro caller fromChainId sender target data value h sigs v' eff hok
    simp only [GatewayV3.step] at hok
    repeat' split at hok
    all_goals
      first
        | exact Except.noConfusion hok
        | (cases hok; exact ⟨rfl, setUsed_self _ _⟩)
  · intro caller sender token amount fromChainId sigs s' eff hok
    simp only [Gateway.step] at hok
    repeat' split at hok
    all_goals
      first
        | exact Except.noConfusion hok
        | (cases hok; exact ⟨rfl, setUsed_self _ _⟩)
  · intro caller sender token amount fromChainId headerRoot proof lc s'
      eff hok
    simp only [Gateway.step] at hok
    repeat' split at hok
    all_goals
      first
        | exact Except.noConfusion hok
        | (cases hok; exact ⟨rfl, setUsed_self _ _⟩)

/-- Witness for C4: a concrete accepting `mintWrapped` run (threshold 1,
one valid signature) whose trace is `[markConsumed 9, mint 5 6 7]`. -/
theorem consumption_precedes_effect_witness :
    ([.markConsumed 9, .mint 5 6 7] : List V3Effect) =
      [V3Effect.markConsumed 9, .mint 5 6 7]
    ∧ (setUsed (fun _ => false) 9) 9 = true :=
  (consumption_precedes_effect
    { recover := fun _ _ => 0, keccakBytes := fun _ => 7,
      lightClientVerify := fun _ _ _ => true, transferOk := true,
      mintOk := true, burnOk := true }
    { threshold := 1, isRelayer := fun _ => true,
      recover := fun _ sig => sig, chainid := 31337,
      chainEnabled := fun _ => true, tokenAllowed := fun _ _ => true,
      transferOk := true, mintOk := true, keccakStr := fun _ => 3,
      keccakBytes := fun _ => 4 }
    { gateways := fun _ => 0, supportedTokens := fun _ => false,
      wrappedTokenMap := fun _ => 0, isRelayer := fun _ => false,
      signatureThreshold := 0, usedSignatures := fun _ => true,
      paused := false, multisig := 0, owner := 1 }
    { usedProofs := fun _ => false, nonce := 0, paused := false,
      owner := 1 }).1 0 5 6 7 9 [1]
    { usedProofs := setUsed (fun _ => false) 9, nonce := 0,
      paused := false, owner := 1 }
    [.markConsumed 9, .mint 5 6 7] rfl

theorem submitLoopAux_spec (outcome : Nat → Bool) :
    ∀ (remaining attempt : Nat) (acc : List Nat),
      (submitLoopAux outcome remaining attempt acc).lockReleased = true
      ∧ (submitLoopAux outcome remaining attempt acc).attempts ≤
          attempt + remaining
      ∧ ((submitLoopAux outcome remaining attempt acc).success = false →
          (submitLoopAux outcome remaining attempt acc).attempts =
            attempt + remaining)
      ∧ attempt ≤ failedAttempts (submitLoopAux outcome remaining attempt acc)
      ∧ (submitLoopAux outcome remaining attempt acc).backoffs =
          acc.reverse ++ (List.range' attempt
            (failedAttempts (submitLoopAux outcome remaining attempt acc) -
              attempt)).map (fun k => 200 * 2 ^ k) := by
  intro remaining
  induction remaining with
  | zero =>
    intro attempt acc
    simp [submitLoopAux, failedAttempts]
  | succ rem ih =>
    intro attempt acc
    by_cases h : outcome (attempt + 1)
    · refine ⟨?_, ?_, ?_, ?_, ?_⟩ <;>
        simp [submitLoopAux, h, failedAttempts] <;> omega
    · have hstep : submitLoopAux outcome (rem + 1) attempt acc =
          submitLoopAux outcome rem (attempt + 1)
            (200 * 2 ^ attempt :: acc) := by
        simp [submitLoopAux, h]
      obtain ⟨ih1, ih2, ih3, ih4, ih5⟩ :=
        ih (attempt + 1) (200 * 2 ^ attempt :: acc)
      rw [hstep]
      refine ⟨ih1, by omega, fun hs => by rw [ih3 hs]; omega, ?_, ?_⟩
      · rw [failedAttempts] at ih4 ⊢
        omega
      · rw [ih5]
        rw [failedAttempts] at ih4 ⊢
        have hsplit : failedAttempts (submitLoopAux outcome rem
            (attempt + 1) (200 * 2 ^ attempt :: acc)) - attempt =
            (failedAttempts (submitLoopAux outcome rem (attempt + 1)
              (200 * 2 ^ attempt :: acc)) - (attempt + 1)) + 1 := by
          rw [failedAttempts]
          omega
        rw [failedAttempts] at hsplit
        rw [hsplit, List.range'_succ]
        simp

/-- C8 counterexample: two **distinct** signature byte strings `1` and `2`
produced by the same relayer identity (the recovery oracle is constantly
`0`) are both stored by `storeSig` and both count toward the submission
threshold: the pool size is `2` and a threshold of `2` is met by a single
identity. The pool deduplicates by raw signature bytes, not by recovered
identity. -/
theorem storeSig_identity_dedup_counterexample :
    storeSig (storeSig [] 1) 2 = [1, 2]
    ∧ (storeSig (storeSig [] 1) 2).length = 2
    ∧ poolMeetsThreshold (storeSig (storeSig [] 1) 2) 2 = true
    ∧ (fun _ : Nat => (0 : Nat)) 1 = (fun _ : Nat => (0 : Nat)) 2
    ∧ (1 : Nat) ≠ 2 :=
  ⟨rfl, rfl, rfl, rfl, by decide⟩

/-- C8 (amended): the signature pool deduplicates by the raw signature
byte string, in any arrival order: storing an already-present byte string
is a no-op (so repeats of the same bytes count once), while any new byte
string — even one produced by the same relayer identity — is appended and
increments the count toward the submission threshold. -/
theorem storeSig_dedup_by_bytes (sigs : List Nat) (s₁ s₂ : Nat) :
    (s₁ ∈ sigs → storeSig sigs s₁ = sigs)
    ∧ (s₁ ∉ sigs → storeSig sigs s₁ = sigs ++ [s₁])
    ∧ storeSig (storeSig sigs s₁) s₁ = storeSig sigs s₁
    ∧ (s₂ ≠ s₁ → s₂ ∉ sigs →
        (storeSig (storeSig sigs s₁) s₂).length =
          (storeSig sigs s₁).length + 1) := by
  refine ⟨?_, ?_, ?_, ?_⟩
  · intro h; rw [storeSig, if_pos h]
  · intro h; rw [storeSig, if_neg h]
  · have : s₁ ∈ storeSig sigs s₁ := by
      rw [storeSig]
      split
      · assumption
      · simp
    rw [storeSig, if_pos this]
  · intro hne hnm
    have : s₂ ∉ storeSig sigs s₁ := by
      rw [storeSig]
      split
      · exact hnm
      · simp [hnm, hne]
    rw [storeSig, if_neg this, List.length_append, List.length_singleton]

/-- Witness for C8 (amended): re-storing byte string `7` is a no-op, and
the distinct byte string `9` increments the pool size. -/
theorem storeSig_dedup_by_bytes_witness :
    storeSig ([7] : List Nat) 7 = [7]
    ∧ (storeSig (storeSig [7] 7) 9).length = (storeSig [7] 7).length + 1 :=
  ⟨(storeSig_dedup_by_bytes [7] 7 9).1 (by decide),
   (storeSig_dedup_by_bytes [7] 7 9).2.2.2 (by decide) (by decide)⟩

/-- C9: the submission retry phase of `trySubmit` performs at most
`config.submitMaxAttempts` attempts (`4` when the option is absent — or
zero, by JS falsiness), sleeping the exponentially increasing backoffs
`200·2⁰, 200·2¹, …` between failed attempts; a run that never succeeds
performs exactly the maximum number of attempts and then stops, and the
per-digest lock is released on every exit path so another process can
retry. Termination is by construction: the loop is a total function. -/
theorem submit_retry_bounded (outcome : Nat → Bool) (cfg : Option Nat) :
    (trySubmitLoop outcome cfg).attempts ≤ submitMaxAttempts cfg
    ∧ submitMaxAttempts none = 4
    ∧ ((trySubmitLoop outcome cfg).success = false →
        (trySubmitLoop outcome cfg).attempts = submitMaxAttempts cfg)
    ∧ (trySubmitLoop outcome cfg).lockReleased = true
    ∧ (trySubmitLoop outcome cfg).backoffs =
        (List.range (failedAttempts (trySubmitLoop outcome cfg))).map
          (fun k => 200 * 2 ^ k) := by
  obtain ⟨h1, h2, h3, _, h5⟩ :=
    submitLoopAux_spec outcome (submitMaxAttempts cfg) 0 []
  rw [trySubmitLoop]
  refine ⟨by simpa using h2, rfl, by simpa using h3, h1, ?_⟩
  rw [h5, List.range_eq_range']
  simp

/-- Witness for C9: with every attempt failing and no configured limit,
the loop stops after exactly 4 attempts, having slept
`[200, 400, 800, 1600]`, and releases the lock. -/
theorem submit_retry_bounded_witness :
    (trySubmitLoop (fun _ => false) none).attempts = 4
    ∧ (trySubmitLoop (fun _ => false) none).lockReleased = true :=
  ⟨(submit_retry_bounded (fun _ => false) none).2.2.1 rfl,
   (submit_retry_bounded (fun _ => false) none).2.2.2.1⟩

/-- C6: for all equal field values (and any keccak oracles), the off-chain
coordinator's `hashMessage` computes exactly the digest of the on-chain
`MessageLib.hashMessage` with the cross-chain nonce fixed to `0` — the
same domain type-hash string, the same eight abi-encoded words in the same
order; and both bind the payload only through its own keccak hash: two
payloads with equal hashes yield equal digests. -/
theorem hashMessage_coordinator_matches_onchain
    (keccakStr : String → Nat) (keccakBytes : List Nat → Nat)
    (fromChainId toChainId sender target : Nat) (data : List Nat)
    (value : Nat) :
    Relayer.hashMessage keccakStr keccakBytes fromChainId toChainId
        sender target data value =
      MessageLib.hashMessage keccakStr keccakBytes 0 fromChainId
        toChainId sender target data value
    ∧ (∀ data' : List Nat, keccakBytes data = keccakBytes data' →
        Relayer.hashMessage keccakStr keccakBytes fromChainId toChainId
          sender target data value =
        Relayer.hashMessage keccakStr keccakBytes fromChainId toChainId
          sender target data' value) := by
  constructor
  · rfl
  · intro data' h
    rw [Relayer.hashMessage, Relayer.hashMessage, h]

/-- Witness for C6: with a length-valued keccak oracle, the payloads
`[1, 2]` and `[3, 4]` hash equal, so the digests coincide. -/
theorem hashMessage_coordinator_matches_onchain_witness :
    Relayer.hashMessage (fun _ => 3) (fun l => l.length) 1 2 5 6 [1, 2] 9 =
      Relayer.hashMessage (fun _ => 3) (fun l => l.length) 1 2 5 6 [3, 4]
        9 :=
  (hashMessage_coordinator_matches_onchain (fun _ => 3)
    (fun l => l.length) 1 2 5 6 [1, 2] 9).2 [3, 4] rfl

end MiniDefi
